import Mathlib

/-!
Shallow embedding of the `baidu_face_identify` Home Assistant integration
(`src/__init__.py` and `src/image_processing.py`).

Modelling conventions:
* HTTP transport outcomes are inputs: a server response carries a status and a
  parsed payload; transport failures (`aiohttp.ClientError`) and timeouts are
  separate constructors.  A timeout that fires while the request coroutine is
  still awaited leaves the Python local `response` unassigned, which matters
  for the `_LOGGER.warning(..., response.url)` lines in the `except
  asyncio.TimeoutError:` handlers; this is modelled explicitly.
* Python dictionaries keyed by strings are association lists with
  insert-or-overwrite semantics (`dictSet`) and first-match lookup
  (`dictLookup`); insertion order is preserved, matching CPython dicts.
* Exceptions are explicit result constructors: `HomeAssistantError` raised
  with the server's message is `authError`/`apiError`, the generic
  `HomeAssistantError("Network error ...")` is `networkError`, a Python
  `KeyError`/`IndexError`/`UnboundLocalError` escaping is `keyError` /
  `indexError` / `unboundLocalError`.
* Scores are integers; only the order structure of the confidence comparison
  matters for the verified properties.
* `datetime.now().strftime(...)` is nondeterministic and is passed in as an
  opaque `timestamp` string.
-/

namespace BaiduFaceIdentify

/-! ### Scratch attribute dictionary (`ATTR_LIST` in `image_processing.py`) -/

/-- A value stored in the module-level `ATTR_LIST` dictionary: either a string
(user id, group id, user info, or the `"null"` sentinel) or a number (score). -/
inductive AttrVal where
  | strv (s : String)
  | intv (n : Int)
deriving DecidableEq

/-- The `"null"` sentinel every `ATTR_LIST` key is reset to. -/
def nullAttr : AttrVal := .strv "null"

/-- The state of the `ATTR_LIST` scratch dictionary: one slot per key
(`group_id`, `score`, `user_id`, `user_info`). -/
structure AttrList where
  group_id : AttrVal
  score : AttrVal
  user_id : AttrVal
  user_info : AttrVal
deriving DecidableEq

/-- State of `ATTR_LIST` after the reset loop `for key in ATTR_LIST: ATTR_LIST[key] = "null"`,
which is also its initial module-level value. -/
def resetAttrs : AttrList := ⟨nullAttr, nullAttr, nullAttr, nullAttr⟩

/-! ### Search API response shapes -/

/-- One entry of the search response's `user_list` (the fields read by
`async_process_image`: `group_id`, `score`, `user_id`, `user_info`). -/
structure UserEntry where
  group_id : String
  score : Int
  user_id : String
  user_info : String
deriving DecidableEq

/-- The `result` object of a search response.  `user_list = none` models the
`user_list` key being absent; `some []` models an empty list. -/
structure SearchResultObj where
  user_list : Option (List UserEntry)
deriving DecidableEq

/-- A decoded search response body.  `result = none` models a falsy
`answer["result"]` (null or empty). -/
structure SearchResponse where
  result : Option SearchResultObj
deriving DecidableEq

/-- One detection record handed to `async_process_faces`
(`{ATTR_NAME: ..., ATTR_CONFIDENCE: ...}`). -/
structure Detection where
  name : String
  confidence : Int
deriving DecidableEq

/-- An uncaught Python exception escaping `async_process_image`. -/
inductive Crash where
  | keyError
  | indexError
  | unboundLocal
deriving DecidableEq

/-- The observable outcome of one `async_process_image` call on a given
search-call result: the scratch dictionary afterwards, the files written, and
the arguments of the `async_process_faces` call (`none` when the early
`return` in the error handler skips it). -/
structure ProcResult where
  attrs : AttrList
  filesWritten : List String
  reported : Option (List Detection × Nat)
deriving DecidableEq

/-- State of `ATTR_LIST` after the populate loop
`for key in ATTR_LIST: ATTR_LIST[key] = ret_json["user_list"][0][key]`. -/
def populateAttrs (u : UserEntry) : AttrList :=
  ⟨.strv u.group_id, .intv u.score, .strv u.user_id, .strv u.user_info⟩

/-- The f-string
`f'{self._save_path}{ATTR_LIST[ATTR_UID]}_{datetime.now().strftime("%Y%m%d_%H%M%S")}_{confidence}.jpg'`. -/
def saveFileName (savePath uid timestamp : String) (confidence : Int) : String :=
  savePath ++ uid ++ "_" ++ timestamp ++ "_" ++ toString confidence ++ ".jpg"

/-- Embedding of `BaiduFaceIdentifyEntity.async_process_image` from `image_processing.py`,
as a function of the search call's outcome.  `searchCall = .error msg` models
`call_api` raising `HomeAssistantError(msg)` (caught, logged, early return);
`.ok resp` models a decoded response whose `"result"` field is `resp.result`. -/
def async_process_image (threshold : Int) (savePath timestamp : String)
    (attrs : AttrList) (searchCall : Except String SearchResponse) :
    Except Crash ProcResult :=
  match searchCall with
  | .error _ => .ok ⟨attrs, [], none⟩
  | .ok resp =>
    match resp.result with
    | none => .ok ⟨resetAttrs, [], some ([], 0)⟩
    | some r =>
      match r.user_list with
      | none => .error .keyError
      | some [] => .error .indexError
      | some (u :: _) =>
        let confidence := u.score
        let files :=
          if confidence > threshold then
            [saveFileName savePath u.user_id timestamp confidence]
          else []
        let known := [Detection.mk u.user_id confidence]
        .ok ⟨populateAttrs u, files, some (known, known.length)⟩

/-! ### Token manager (`BaiduFace.get_token` in `__init__.py`) -/

/-- The decoded JSON body of a token-endpoint response: whether it carries an
`access_token` field, and the `error.message` field when present. -/
structure TokenPayload where
  access_token : Option String
  errorMessage : Option String
deriving DecidableEq

/-- Outcome of the HTTP exchange inside `get_token`:
a server response, a transport failure (`aiohttp.ClientError`), a timeout that
fires during the GET itself (Python local `response` still unassigned), or a
timeout firing during `response.json()` (local `response` already bound). -/
inductive TokenTransport where
  | response (status : Nat) (payload : TokenPayload)
  | clientError
  | timeoutDuringRequest
  | timeoutAfterResponse
deriving DecidableEq

/-- How a `get_token` call terminates. -/
inductive TokenResult where
  | ok (token : String)
  | authError (msg : String)
  | keyError
  | networkError
  | unboundLocalError
deriving DecidableEq

/-- The `raise HomeAssistantError(answer["error"]["message"])` line: a missing
`error` field is a Python `KeyError` instead. -/
def tokenFailure (payload : TokenPayload) : TokenResult :=
  match payload.errorMessage with
  | some m => .authError m
  | none => .keyError

/-- Embedding of `BaiduFace.get_token`.  Success requires `response.status < 300` and an
`access_token` key; a `ClientError` falls through to the generic network
error; a timeout logs `response.url` first, which raises `UnboundLocalError`
when the timeout happened before `response` was assigned. -/
def get_token (t : TokenTransport) : TokenResult :=
  match t with
  | .response status payload =>
    match payload.access_token with
    | some tok => if status < 300 then .ok tok else tokenFailure payload
    | none => tokenFailure payload
  | .clientError => .networkError
  | .timeoutDuringRequest => .unboundLocalError
  | .timeoutAfterResponse => .networkError

/-! ### Generic API client (`BaiduFace.call_api` in `__init__.py`) -/

/-- Outcome of the HTTP exchange inside `call_api`.  Unlike `get_token`, the
`response.json()` call sits outside the timeout block, so a timeout can only
fire during the request itself, with the local `response` unassigned. -/
inductive ApiCallOutcome (α : Type) where
  | response (status : Nat) (answer : α) (errorMessage : Option String)
  | clientError
  | timeoutDuringRequest
deriving DecidableEq

/-- How a `call_api` call terminates. -/
inductive ApiResult (α : Type) where
  | ok (answer : α)
  | apiError (msg : String)
  | keyError
  | networkError
  | unboundLocalError
deriving DecidableEq

/-- Embedding of `BaiduFace.call_api`: status `< 300` returns the decoded body, otherwise
`HomeAssistantError(answer["error"]["message"])` (a `KeyError` when the
`error` field is missing); `ClientError` becomes the generic network error;
a timeout logs `response.url` with `response` unassigned, raising
`UnboundLocalError` before the generic raise is reached. -/
def call_api {α : Type} (t : ApiCallOutcome α) : ApiResult α :=
  match t with
  | .response status answer errMsg =>
    if status < 300 then .ok answer
    else
      match errMsg with
      | some m => .apiError m
      | none => .keyError
  | .clientError => .networkError
  | .timeoutDuringRequest => .unboundLocalError

/-! ### String-keyed dictionaries (CPython dict semantics) -/

/-- Python `m[k] = v`: overwrite in place when the key exists, else append. -/
def dictSet {α : Type} : List (String × α) → String → α → List (String × α)
  | [], k, v => [(k, v)]
  | (k', v') :: rest, k, v =>
    if k' = k then (k, v) :: rest else (k', v') :: dictSet rest k v

/-- Python `m.get(k)`: first (and only) binding of `k`. -/
def dictLookup {α : Type} : List (String × α) → String → Option α
  | [], _ => none
  | (k', v') :: rest, k => if k' = k then some v' else dictLookup rest k

/-! ### Store loader (`BaiduFace.update_store` in `__init__.py`) -/

/-- The inner `for person in persons["user_id_list"]: store[group][person] = person`
loop, starting from the fresh `{}` bound by `self._store[group] = {}`. -/
def personDict (ps : List String) : List (String × String) :=
  ps.foldl (fun m p => dictSet m p p) []

/-- Observable outcome of one `update_store` run: the final `self._store`,
the groups for which `faceset/group/getusers` was called (in order), and the
propagated `HomeAssistantError` message when a call failed. -/
structure SyncResult where
  store : List (String × List (String × String))
  queried : List String
  err : Option String
deriving DecidableEq

/-- The `for group in groups["group_id_list"]:` loop of `update_store`.
Each iteration first binds `self._store[group] = {}`, then issues the
`getusers` call; a raised error propagates immediately, aborting the loop.
A falsy `persons` result (`.ok none`) skips the person loop. -/
def update_store_go (getusers : String → Except String (Option (List String))) :
    List (String × List (String × String)) → List String → List String → SyncResult
  | store, queried, [] => ⟨store, queried, none⟩
  | store, queried, g :: rest =>
    let store1 := dictSet store g []
    match getusers g with
    | .error e => ⟨store1, queried ++ [g], some e⟩
    | .ok none => update_store_go getusers store1 (queried ++ [g]) rest
    | .ok (some ps) =>
      update_store_go getusers (dictSet store1 g (personDict ps)) (queried ++ [g]) rest

/-- Embedding of `BaiduFace.update_store`, as a function of the two API calls' outcomes.
`getlist` is the `faceset/group/getlist` call's `["result"]` projection:
`.ok none` is a falsy result (the `if groups:` guard skips everything),
`.ok (some gs)` a truthy result with `group_id_list = gs`.  `getusers g` is
the `faceset/group/getusers` call for group `g`, likewise projected. -/
def update_store (getlist : Except String (Option (List String)))
    (getusers : String → Except String (Option (List String))) : SyncResult :=
  match getlist with
  | .error e => ⟨[], [], some e⟩
  | .ok none => ⟨[], [], none⟩
  | .ok (some gs) => update_store_go getusers [] [] gs

/-! ### Frame processing with the full client state threaded through -/

/-- The mutable state of the `BaiduFace` object that `async_process_image`
could in principle touch through `self._api`: the held token and the
group/person store. -/
structure FaceApiState where
  token : String
  store : List (String × List (String × String))
deriving DecidableEq

/-- State visible to one `BaiduFaceIdentifyEntity` frame: the shared
`BaiduFace` state plus the module-level `ATTR_LIST` scratch dictionary. -/
structure FrameState where
  api : FaceApiState
  attrs : AttrList
deriving DecidableEq

/-- Embedding of `call_api` as invoked on the `BaiduFace` object: it reads `self._token`
(embedded in the URL) and assigns no attribute, so the state passes through. -/
def call_api_st {α : Type} (st : FaceApiState)
    (net : String → ApiCallOutcome α) : FaceApiState × ApiResult α :=
  (st, call_api (net st.token))

/-- Outcome of one full frame: the state afterwards, the files written, and
either the `async_process_faces` arguments (`none` when skipped) or an
uncaught exception. -/
structure FullResult where
  state : FrameState
  filesWritten : List String
  outcome : Except Crash (Option (List Detection × Nat))

/-- Dispatch on the search call's result inside `async_process_image`:
`HomeAssistantError` (server rejection or the generic network error) is
caught by the `except HomeAssistantError` clause; a `KeyError` or
`UnboundLocalError` escaping `call_api` is not caught and propagates; a
decoded response is handed to the parsing code.  A parse crash happens after
the reset loop, so the scratch dictionary is left fully reset. -/
def processWithApi (threshold : Int) (savePath timestamp : String)
    (attrs : AttrList) (p : FaceApiState × ApiResult SearchResponse) : FullResult :=
  match p with
  | (api1, .apiError m) =>
    match async_process_image threshold savePath timestamp attrs (.error m) with
    | .ok pr => ⟨⟨api1, pr.attrs⟩, pr.filesWritten, .ok pr.reported⟩
    | .error c => ⟨⟨api1, attrs⟩, [], .error c⟩
  | (api1, .networkError) =>
    match async_process_image threshold savePath timestamp attrs
        (.error "Network error on baidu face api.") with
    | .ok pr => ⟨⟨api1, pr.attrs⟩, pr.filesWritten, .ok pr.reported⟩
    | .error c => ⟨⟨api1, attrs⟩, [], .error c⟩
  | (api1, .keyError) => ⟨⟨api1, attrs⟩, [], .error .keyError⟩
  | (api1, .unboundLocalError) => ⟨⟨api1, attrs⟩, [], .error .unboundLocal⟩
  | (api1, .ok resp) =>
    match async_process_image threshold savePath timestamp attrs (.ok resp) with
    | .ok pr => ⟨⟨api1, pr.attrs⟩, pr.filesWritten, .ok pr.reported⟩
    | .error c => ⟨⟨api1, resetAttrs⟩, [], .error c⟩

/-- One full `async_process_image` call, from the frame state and the network
behaviour (a function of the token embedded in the request URL). -/
def async_process_image_full (threshold : Int) (savePath timestamp : String)
    (st : FrameState) (net : String → ApiCallOutcome SearchResponse) : FullResult :=
  processWithApi threshold savePath timestamp st.attrs (call_api_st st.api net)

/-- Concrete `getusers` behaviour used to instantiate the store-sync
theorems: group `g1` has one person `p1`, group `g2`'s call raises, any other
group returns a falsy result. -/
def wGetusers : String → Except String (Option (List String)) :=
  fun g =>
    if g = "g1" then .ok (some ["p1"])
    else if g = "g2" then .error "boom"
    else .ok none

/-! ## Dictionary lemmas -/

theorem dictLookup_eq_none {α : Type} (m : List (String × α)) (k : String) :
    dictLookup m k = none ↔ k ∉ m.map Prod.fst := by
  induction m with
  | nil => simp [dictLookup]
  | cons p rest ih =>
    obtain ⟨k', v'⟩ := p
    by_cases h : k' = k
    · subst h; simp [dictLookup]
    · simp [dictLookup, h, ih, Ne.symm h]

theorem dictSet_fresh {α : Type} (m : List (String × α)) (k : String) (v : α)
    (h : dictLookup m k = none) : dictSet m k v = m ++ [(k, v)] := by
  induction m with
  | nil => rfl
  | cons p rest ih =>
    obtain ⟨k', v'⟩ := p
    by_cases hk : k' = k
    · simp [dictLookup, hk] at h
    · simp only [dictLookup, if_neg hk] at h
      simp [dictSet, hk, ih h]

theorem dictSet_overwrite {α : Type} (m : List (String × α)) (k : String)
    (v w : α) : dictSet (dictSet m k v) k w = dictSet m k w := by
  induction m with
  | nil => simp [dictSet]
  | cons p rest ih =>
    obtain ⟨k', v'⟩ := p
    by_cases hk : k' = k
    · simp [dictSet, hk]
    · simp [dictSet, hk, ih]

theorem dictLookup_append_none {α : Type} (m : List (String × α)) (k : String)
    (v : α) (x : String) (hx : dictLookup m x = none) (hk : x ≠ k) :
    dictLookup (m ++ [(k, v)]) x = none := by
  induction m with
  | nil =>
    have : ¬ k = x := fun h => hk h.symm
    simp [dictLookup, this]
  | cons p rest ih =>
    obtain ⟨k', v'⟩ := p
    by_cases h : k' = x
    · simp [dictLookup, h] at hx
    · simp only [dictLookup, if_neg h] at hx
      simpa [dictLookup, h] using ih hx

theorem dictLookup_map_self {β : Type} (f : String → β) (gs : List String)
    (g : String) (hg : g ∈ gs) :
    dictLookup (gs.map fun x => (x, f x)) g = some (f g) := by
  induction gs with
  | nil => cases hg
  | cons a rest ih =>
    cases hg with
    | head => simp [dictLookup]
    | tail b hg' =>
      by_cases h : a = g
      · subst h; simp [dictLookup]
      · simpa [dictLookup, h] using ih hg'

theorem personDict_aux (ps : List String) : ∀ m : List (String × String),
    (∀ p ∈ ps, dictLookup m p = none) → ps.Nodup →
    ps.foldl (fun m p => dictSet m p p) m = m ++ (ps.map fun p => (p, p)) := by
  induction ps with
  | nil => intro m _ _; simp
  | cons p rest ih =>
    intro m hm hnd
    have hp : dictLookup m p = none := hm p (by simp)
    have hstep : dictSet m p p = m ++ [(p, p)] := dictSet_fresh m p p hp
    have hpn : p ∉ rest := (List.nodup_cons.mp hnd).1
    have hnd' : rest.Nodup := (List.nodup_cons.mp hnd).2
    have hm' : ∀ q ∈ rest, dictLookup (m ++ [(p, p)]) q = none := by
      intro q hq
      exact dictLookup_append_none m p (p, p).2 q (hm q (by simp [hq]))
        (fun h => hpn (h ▸ hq))
    show List.foldl _ (dictSet m p p) rest = _
    rw [hstep, ih (m ++ [(p, p)]) hm' hnd']
    simp

theorem personDict_eq (ps : List String) (h : ps.Nodup) :
    personDict ps = ps.map fun p => (p, p) := by
  simpa [personDict] using personDict_aux ps [] (fun p _ => rfl) h

theorem personDict_keys (ps : List String) (h : ps.Nodup) :
    (personDict ps).map Prod.fst = ps := by
  have hcomp : (Prod.fst ∘ fun p : String => (p, p)) = id := rfl
  rw [personDict_eq ps h, List.map_map, hcomp, List.map_id]

theorem dictLookup_personDict (ps : List String) (h : ps.Nodup) (p : String)
    (hp : p ∈ ps) : dictLookup (personDict ps) p = some p := by
  rw [personDict_eq ps h]
  exact dictLookup_map_self (fun x => x) ps p hp

/-! ## Store sync lemmas -/

/-- When every `getusers` call in the remaining group list succeeds with a
present `user_id_list` and the groups are fresh for the accumulated store,
the loop appends one `(group, personDict)` binding per group, queries every
group in order, and raises nothing. -/
theorem update_store_go_success
    (getusers : String → Except String (Option (List String)))
    (ul : String → List String) (gs : List String) :
    ∀ (store : List (String × List (String × String))) (queried : List String),
    (∀ g ∈ gs, getusers g = .ok (some (ul g))) →
    (∀ g ∈ gs, dictLookup store g = none) →
    gs.Nodup →
    update_store_go getusers store queried gs
      = ⟨store ++ (gs.map fun g => (g, personDict (ul g))), queried ++ gs, none⟩ := by
  induction gs with
  | nil => intro store queried _ _ _; simp [update_store_go]
  | cons g rest ih =>
    intro store queried hcalls hfresh hnd
    have hg : getusers g = .ok (some (ul g)) := hcalls g (by simp)
    have hfg : dictLookup store g = none := hfresh g (by simp)
    have hset : dictSet (dictSet store g []) g (personDict (ul g))
        = store ++ [(g, personDict (ul g))] := by
      rw [dictSet_overwrite, dictSet_fresh store g _ hfg]
    have hgn : g ∉ rest := (List.nodup_cons.mp hnd).1
    have hnd' : rest.Nodup := (List.nodup_cons.mp hnd).2
    have hfresh' : ∀ q ∈ rest,
        dictLookup (store ++ [(g, personDict (ul g))]) q = none :=
      fun q hq => dictLookup_append_none store g _ q (hfresh q (by simp [hq]))
        (fun h => hgn (h ▸ hq))
    have hcalls' : ∀ q ∈ rest, getusers q = .ok (some (ul q)) :=
      fun q hq => hcalls q (by simp [hq])
    simp only [update_store_go, hg]
    rw [hset, ih (store ++ [(g, personDict (ul g))]) (queried ++ [g]) hcalls'
      hfresh' hnd']
    simp

/-- When every `getusers` call before `gbad` returns (with any result) and
the call for `gbad` raises `e`, the loop stops at `gbad`: the error
propagates, exactly the groups up to and including `gbad` are queried, and
exactly those groups are inserted into the store. -/
theorem update_store_go_err
    (getusers : String → Except String (Option (List String)))
    (e : String) (gbad : String) (pre : List String) :
    ∀ (store : List (String × List (String × String))) (queried : List String)
      (post : List String),
    (∀ g ∈ pre, ∃ v, getusers g = .ok v) →
    getusers gbad = .error e →
    (∀ g ∈ pre ++ [gbad], dictLookup store g = none) →
    (pre ++ [gbad]).Nodup →
    (update_store_go getusers store queried (pre ++ gbad :: post)).err = some e
    ∧ (update_store_go getusers store queried (pre ++ gbad :: post)).queried
        = queried ++ pre ++ [gbad]
    ∧ (update_store_go getusers store queried (pre ++ gbad :: post)).store.map
          Prod.fst
        = store.map Prod.fst ++ pre ++ [gbad] := by
  induction pre with
  | nil =>
    intro store queried post _ hbad hfresh _
    have hfg : dictLookup store gbad = none := hfresh gbad (by simp)
    have hstep : update_store_go getusers store queried ([] ++ gbad :: post)
        = ⟨dictSet store gbad [], queried ++ [gbad], some e⟩ := by
      simp [update_store_go, hbad]
    rw [hstep]
    refine ⟨rfl, by simp, ?_⟩
    rw [dictSet_fresh store gbad [] hfg]
    simp
  | cons g pre' ih =>
    intro store queried post hcalls hbad hfresh hnd
    obtain ⟨v, hv⟩ := hcalls g (by simp)
    have hfg : dictLookup store g = none := hfresh g (by simp)
    have hgn : g ∉ pre' ++ [gbad] := (List.nodup_cons.mp hnd).1
    have hnd' : (pre' ++ [gbad]).Nodup := (List.nodup_cons.mp hnd).2
    have hcalls' : ∀ q ∈ pre', ∃ w, getusers q = .ok w :=
      fun q hq => hcalls q (by simp [hq])
    cases v with
    | none =>
      have hset : dictSet store g [] = store ++ [(g, [])] :=
        dictSet_fresh store g [] hfg
      have hfresh' : ∀ q ∈ pre' ++ [gbad],
          dictLookup (store ++ [(g, [])]) q = none :=
        fun q hq => dictLookup_append_none store g [] q
          (hfresh q (List.mem_cons_of_mem g hq)) (fun h => hgn (h ▸ hq))
      have hrec := ih (store ++ [(g, [])]) (queried ++ [g]) post hcalls' hbad
        hfresh' hnd'
      have hstep : update_store_go getusers store queried
            ((g :: pre') ++ gbad :: post)
          = update_store_go getusers (store ++ [(g, [])]) (queried ++ [g])
              (pre' ++ gbad :: post) := by
        simp only [List.cons_append, update_store_go, hv, hset, List.append_eq]
      rw [hstep]
      refine ⟨hrec.1, ?_, ?_⟩
      · rw [hrec.2.1]; simp
      · rw [hrec.2.2]; simp
    | some ps =>
      have hset : dictSet (dictSet store g []) g (personDict ps)
          = store ++ [(g, personDict ps)] := by
        rw [dictSet_overwrite, dictSet_fresh store g _ hfg]
      have hfresh' : ∀ q ∈ pre' ++ [gbad],
          dictLookup (store ++ [(g, personDict ps)]) q = none :=
        fun q hq => dictLookup_append_none store g _ q
          (hfresh q (List.mem_cons_of_mem g hq)) (fun h => hgn (h ▸ hq))
      have hrec := ih (store ++ [(g, personDict ps)]) (queried ++ [g]) post
        hcalls' hbad hfresh' hnd'
      have hstep : update_store_go getusers store queried
            ((g :: pre') ++ gbad :: post)
          = update_store_go getusers (store ++ [(g, personDict ps)])
              (queried ++ [g]) (pre' ++ gbad :: post) := by
        simp only [List.cons_append, update_store_go, hv, hset, List.append_eq]
      rw [hstep]
      refine ⟨hrec.1, ?_, ?_⟩
      · rw [hrec.2.1]; simp
      · rw [hrec.2.2]; simp

/-! ## Claim theorems -/

/-- C1 counterexample: with the threshold and the returned score both 80
("at or above the threshold"), `async_process_image` writes no file at all —
the code guards the write with a strict `confidence > self._confidence` —
while still yielding one detection. -/
theorem process_at_threshold_writes_no_file :
    async_process_image 80 "/conf/www/face/" "20200101_120000" resetAttrs
        (.ok ⟨some ⟨some [⟨"g1", 80, "u1", "x"⟩]⟩⟩)
      = .ok ⟨populateAttrs ⟨"g1", 80, "u1", "x"⟩, [], some ([⟨"u1", 80⟩], 1)⟩ := by
  simp [async_process_image, saveFileName]

/-- C1 (amended): for every processed frame whose match has confidence
strictly above the configured threshold, `process` writes exactly one file
named `{userId}_{timestamp}_{confidence}.jpg` under the configured save
directory and yields exactly one detection (name = matched user id,
confidence = matched score). -/
theorem process_above_threshold_writes_file (threshold : Int) (sp ts : String)
    (attrs : AttrList) (u : UserEntry) (us : List UserEntry)
    (h : u.score > threshold) :
    async_process_image threshold sp ts attrs (.ok ⟨some ⟨some (u :: us)⟩⟩)
      = .ok ⟨populateAttrs u,
             [saveFileName sp u.user_id ts u.score],
             some ([⟨u.user_id, u.score⟩], 1)⟩ := by
  simp [async_process_image, h]

/-- C1 witness: score 92 against threshold 80 writes the one file
`u1_{timestamp}_92.jpg` under the save directory and yields one detection. -/
theorem process_above_threshold_writes_file_inst :
    async_process_image 80 "/conf/www/face/" "20200101_120000" resetAttrs
        (.ok ⟨some ⟨some [⟨"g1", 92, "u1", "x"⟩]⟩⟩)
      = .ok ⟨populateAttrs ⟨"g1", 92, "u1", "x"⟩,
             [saveFileName "/conf/www/face/" "u1" "20200101_120000" 92],
             some ([⟨"u1", 92⟩], 1)⟩ :=
  process_above_threshold_writes_file 80 "/conf/www/face/" "20200101_120000"
    resetAttrs ⟨"g1", 92, "u1", "x"⟩ [] (by decide)

/-- C2 counterexample: when the search call raises, `async_process_image`
returns before `async_process_faces` is ever called, so no detection list —
empty or otherwise — is reported to the host for that frame (`reported =
none`, and no `ProcResult` with a reported list matches the outcome). -/
theorem process_api_error_reports_nothing :
    async_process_image 80 "/conf/www/face/" "20200101_120000"
        (populateAttrs ⟨"g1", 92, "u1", "x"⟩)
        (.error "Network error on baidu face api.")
      = .ok ⟨populateAttrs ⟨"g1", 92, "u1", "x"⟩, [], none⟩
    ∧ ∀ pr : ProcResult, pr.reported.isSome = true →
        async_process_image 80 "/conf/www/face/" "20200101_120000"
            (populateAttrs ⟨"g1", 92, "u1", "x"⟩)
            (.error "Network error on baidu face api.")
          ≠ .ok pr := by
  refine ⟨rfl, fun pr hpr heq => ?_⟩
  simp [async_process_image] at heq
  rw [← heq] at hpr
  simp at hpr

/-- C2 (amended): for every processed frame where the API search call raises
an error, `process` catches the error and never propagates it, writes no
file, and emits zero detections — but it does so by skipping the
detection-reporting callback entirely (no detection list, not even an empty
one, is reported to the host for that frame), and it leaves the scratch
attribute dictionary untouched. -/
theorem process_api_error_behavior (threshold : Int) (sp ts : String)
    (attrs : AttrList) (e : String) :
    async_process_image threshold sp ts attrs (.error e)
      = .ok ⟨attrs, [], none⟩ := rfl

/-- C3 counterexample: a server response with status 250 and an
`access_token` field returns the token — the code accepts any status below
300 — where the claim ("status 200, otherwise AuthError") demands an
AuthError carrying the server message. -/
theorem get_token_status_250_returns_token :
    get_token (.response 250 ⟨some "T", some "m"⟩) = .ok "T"
    ∧ ∀ msg, get_token (.response 250 ⟨some "T", some "m"⟩) ≠ .authError msg := by
  refine ⟨rfl, fun msg h => ?_⟩
  simp [get_token] at h

/-- C3 (amended): for every token-endpoint server response, `get_token`
returns the payload's `access_token` value whenever the status is below 300
and the field is present (in particular `{"access_token":"T1"}` at status 200
yields `"T1"`); when the status is 300 or above or the field is absent, it
raises `HomeAssistantError` carrying the payload's `error.message` whenever
that field is present. -/
theorem get_token_behavior (status : Nat) (payload : TokenPayload)
    (tok m : String) :
    (payload.access_token = some tok → status < 300 →
      get_token (.response status payload) = .ok tok)
    ∧ (¬ (status < 300 ∧ payload.access_token.isSome = true) →
        payload.errorMessage = some m →
        get_token (.response status payload) = .authError m) := by
  constructor
  · intro ha hs
    simp [get_token, ha, hs]
  · intro hn hm
    cases hac : payload.access_token with
    | none => simp [get_token, hac, tokenFailure, hm]
    | some t =>
      have hs : ¬ status < 300 := fun hs => hn ⟨hs, by simp [hac]⟩
      simp [get_token, hac, hs, tokenFailure, hm]

/-- C3 witness: `{"access_token":"T1"}` at status 200 yields `"T1"`; status
400 with `error.message = "denied"` raises with message `"denied"`. -/
theorem get_token_behavior_inst :
    get_token (.response 200 ⟨some "T1", none⟩) = .ok "T1"
    ∧ get_token (.response 400 ⟨none, some "denied"⟩) = .authError "denied" :=
  ⟨(get_token_behavior 200 ⟨some "T1", none⟩ "T1" "m").1 rfl (by decide),
   (get_token_behavior 400 ⟨none, some "denied"⟩ "T" "denied").2 (by decide) rfl⟩

/-- C5: a transport failure (`aiohttp.ClientError`) is indeed collapsed into
the generic network `HomeAssistantError`, but a timeout that fires during the
HTTP request is not: the `except asyncio.TimeoutError` handlers log
`response.url` with the local `response` still unassigned, so an
`UnboundLocalError` escapes instead of the claimed generic NetworkError. -/
theorem timeout_raises_unbound_local :
    get_token .timeoutDuringRequest = .unboundLocalError
    ∧ @call_api Unit .timeoutDuringRequest = .unboundLocalError
    ∧ get_token .clientError = .networkError
    ∧ @call_api Unit .clientError = .networkError
    ∧ get_token .timeoutDuringRequest ≠ .networkError := by
  refine ⟨rfl, rfl, rfl, rfl, fun h => ?_⟩
  simp [get_token] at h

/-- C6: a frame with a falsy search result yields the empty detection list
and writes no file; a frame whose match scores strictly below the threshold
yields exactly one detection and writes no file. -/
theorem process_no_match_and_below_threshold :
    (∀ (threshold : Int) (sp ts : String) (attrs : AttrList),
      async_process_image threshold sp ts attrs (.ok ⟨none⟩)
        = .ok ⟨resetAttrs, [], some ([], 0)⟩)
    ∧ ∀ (threshold : Int) (sp ts : String) (attrs : AttrList)
        (u : UserEntry) (us : List UserEntry), u.score < threshold →
        async_process_image threshold sp ts attrs (.ok ⟨some ⟨some (u :: us)⟩⟩)
          = .ok ⟨populateAttrs u, [], some ([⟨u.user_id, u.score⟩], 1)⟩ := by
  refine ⟨fun _ _ _ _ => rfl, fun threshold sp ts attrs u us h => ?_⟩
  have hng : ¬ u.score > threshold := lt_asymm h
  simp [async_process_image, hng]

/-- C6 witness: score 61 against threshold 80 yields one detection
`(u1, 61)` and writes no file; the no-match conjunct is hypothesis-free. -/
theorem process_no_match_and_below_threshold_inst :
    async_process_image 80 "/conf/www/face/" "20200101_120000" resetAttrs
        (.ok ⟨some ⟨some [⟨"g1", 61, "u1", "x"⟩]⟩⟩)
      = .ok ⟨populateAttrs ⟨"g1", 61, "u1", "x"⟩, [], some ([⟨"u1", 61⟩], 1)⟩ :=
  process_no_match_and_below_threshold.2 80 "/conf/www/face/" "20200101_120000"
    resetAttrs ⟨"g1", 61, "u1", "x"⟩ [] (by decide)

/-- C7: a `process` call whose search succeeds with a falsy result resets
every key of the scratch dictionary to the `"null"` sentinel, whatever values
a prior match left there; a second such call keeps them all at the sentinel,
so no attribute from a hypothetical earlier match survives two no-match
frames. -/
theorem process_no_match_resets_scratch (threshold : Int) (sp ts : String)
    (attrs : AttrList) :
    async_process_image threshold sp ts attrs (.ok ⟨none⟩)
      = .ok ⟨resetAttrs, [], some ([], 0)⟩
    ∧ async_process_image threshold sp ts resetAttrs (.ok ⟨none⟩)
      = .ok ⟨resetAttrs, [], some ([], 0)⟩
    ∧ resetAttrs.group_id = nullAttr ∧ resetAttrs.score = nullAttr
    ∧ resetAttrs.user_id = nullAttr ∧ resetAttrs.user_info = nullAttr :=
  ⟨rfl, rfl, rfl, rfl, rfl, rfl⟩

/-- C9: when the search call succeeds with a truthy result whose `user_list`
is absent, `async_process_image` raises an uncaught `KeyError`; when
`user_list` is an empty list, an uncaught `IndexError` — both from the
unconditional `ret_json["user_list"][0]` indexing.  With a non-empty
`user_list` the call always completes normally, so a non-empty `user_list`
in every truthy result is exactly the precondition for totality. -/
theorem process_empty_user_list_crashes :
    (∀ (threshold : Int) (sp ts : String) (attrs : AttrList),
      async_process_image threshold sp ts attrs (.ok ⟨some ⟨none⟩⟩)
        = .error .keyError)
    ∧ (∀ (threshold : Int) (sp ts : String) (attrs : AttrList),
      async_process_image threshold sp ts attrs (.ok ⟨some ⟨some []⟩⟩)
        = .error .indexError)
    ∧ ∀ (threshold : Int) (sp ts : String) (attrs : AttrList)
        (u : UserEntry) (us : List UserEntry),
        ∃ pr : ProcResult,
          async_process_image threshold sp ts attrs (.ok ⟨some ⟨some (u :: us)⟩⟩)
            = .ok pr :=
  ⟨fun _ _ _ _ => rfl, fun _ _ _ _ => rfl,
   fun _ _ _ _ _ _ => ⟨_, rfl⟩⟩

/-- Every branch of `processWithApi` carries the incoming `FaceApiState`
through unchanged. -/
theorem processWithApi_preserves_api (threshold : Int) (sp ts : String)
    (attrs : AttrList) (api1 : FaceApiState) (res : ApiResult SearchResponse) :
    (processWithApi threshold sp ts attrs (api1, res)).state.api = api1 := by
  cases res with
  | ok resp =>
    cases h : async_process_image threshold sp ts attrs (.ok resp) <;>
      simp [processWithApi, h]
  | apiError m => rfl
  | keyError => rfl
  | networkError => rfl
  | unboundLocalError => rfl

/-- C10: one full `async_process_image` call — whatever the search call's
outcome (falsy result, match below or above the threshold, server rejection,
network failure, or even an uncaught crash) — leaves the group/person store
and the held token exactly as they were; only the scratch attributes, the
reported detections and the written files vary. -/
theorem process_preserves_api_state (threshold : Int) (sp ts : String)
    (st : FrameState) (net : String → ApiCallOutcome SearchResponse) :
    (async_process_image_full threshold sp ts st net).state.api = st.api :=
  processWithApi_preserves_api threshold sp ts st.attrs st.api
    (call_api (net st.api.token))

/-- C4: when the group-list call reports `group_id_list = gs` and every
`getusers` call reports a `user_id_list`, the synced store's group keys are
exactly `gs` (in order), each group maps to the dictionary built from its
reported `user_id_list`, that dictionary's keys are exactly the reported
list, and every person id is mapped to itself. -/
theorem update_store_success_mirror
    (getlist : Except String (Option (List String)))
    (getusers : String → Except String (Option (List String)))
    (gs : List String) (ul : String → List String)
    (h1 : getlist = .ok (some gs))
    (h2 : ∀ g ∈ gs, getusers g = .ok (some (ul g)))
    (hnd : gs.Nodup) (hul : ∀ g ∈ gs, (ul g).Nodup) :
    (update_store getlist getusers).err = none
    ∧ (update_store getlist getusers).store.map Prod.fst = gs
    ∧ (∀ g ∈ gs, dictLookup (update_store getlist getusers).store g
        = some (personDict (ul g)))
    ∧ (∀ g ∈ gs, (personDict (ul g)).map Prod.fst = ul g)
    ∧ ∀ g ∈ gs, ∀ p ∈ ul g, dictLookup (personDict (ul g)) p = some p := by
  subst h1
  have hrun := update_store_go_success getusers ul gs [] [] h2 (fun g _ => rfl) hnd
  have hres : update_store (.ok (some gs)) getusers
      = ⟨gs.map fun g => (g, personDict (ul g)), gs, none⟩ := by
    simpa [update_store] using hrun
  refine ⟨by rw [hres], ?_, ?_, ?_, ?_⟩
  · rw [hres]
    have hcomp : (Prod.fst ∘ fun g : String => (g, personDict (ul g))) = id := rfl
    simp only [List.map_map, hcomp, List.map_id]
  · intro g hg
    rw [hres]
    exact dictLookup_map_self (fun x => personDict (ul x)) gs g hg
  · intro g hg
    exact personDict_keys (ul g) (hul g hg)
  · intro g hg p hp
    exact dictLookup_personDict (ul g) (hul g hg) p hp

/-- C4 witness: the spec scenario — group list `["g1"]`, person list `["p1"]`
for `g1` — produces the store `{"g1": {"p1": "p1"}}`. -/
theorem update_store_success_mirror_inst :
    (update_store (.ok (some ["g1"])) wGetusers).err = none
    ∧ (update_store (.ok (some ["g1"])) wGetusers).store.map Prod.fst = ["g1"]
    ∧ (∀ g ∈ ["g1"], dictLookup (update_store (.ok (some ["g1"])) wGetusers).store g
        = some (personDict ["p1"]))
    ∧ (∀ g ∈ ["g1"], (personDict ["p1"]).map Prod.fst = ["p1"])
    ∧ ∀ g ∈ ["g1"], ∀ p ∈ ["p1"],
        dictLookup (personDict ["p1"]) p = some p :=
  update_store_success_mirror (.ok (some ["g1"])) wGetusers ["g1"]
    (fun _ => ["p1"]) rfl
    (fun g hg => by
      have : g = "g1" := by simpa using hg
      subst this
      rfl)
    (by simp) (fun g _ => by simp)

/-- C8: a failing group-list call makes the whole sync fail with that error
and nothing queried or inserted; a failing person-list call for a group
aborts the sync with that error, with exactly the groups up to and including
the failing one queried and inserted — no later group is queried or appears
in the store. -/
theorem update_store_failure_propagation :
    (∀ (e : String) (getusers : String → Except String (Option (List String))),
      update_store (.error e) getusers = ⟨[], [], some e⟩)
    ∧ ∀ (getusers : String → Except String (Option (List String)))
        (pre : List String) (gbad : String) (post : List String) (e : String),
        (∀ g ∈ pre, ∃ v, getusers g = .ok v) →
        getusers gbad = .error e →
        (pre ++ gbad :: post).Nodup →
        (update_store (.ok (some (pre ++ gbad :: post))) getusers).err = some e
        ∧ (update_store (.ok (some (pre ++ gbad :: post))) getusers).queried
            = pre ++ [gbad]
        ∧ (update_store (.ok (some (pre ++ gbad :: post))) getusers).store.map
              Prod.fst
            = pre ++ [gbad]
        ∧ ∀ g ∈ post,
            g ∉ (update_store (.ok (some (pre ++ gbad :: post))) getusers).queried
            ∧ dictLookup
                (update_store (.ok (some (pre ++ gbad :: post))) getusers).store g
              = none := by
  constructor
  · intro e getusers
    rfl
  · intro getusers pre gbad post e hcalls hbad hnd
    have hd := List.nodup_append.mp hnd
    have hgbadpost : gbad ∉ post := (List.nodup_cons.mp hd.2.1).1
    have hnd2 : (pre ++ [gbad]).Nodup := by
      refine List.nodup_append.mpr ⟨hd.1, by simp, ?_⟩
      intro a ha hb
      have : a = gbad := by simpa using hb
      subst this
      exact hd.2.2 ha (by simp)
    have hrun := update_store_go_err getusers e gbad pre [] [] post hcalls hbad
      (fun g _ => rfl) hnd2
    have herr : (update_store (.ok (some (pre ++ gbad :: post))) getusers).err
        = some e := by
      simpa [update_store] using hrun.1
    have hq : (update_store (.ok (some (pre ++ gbad :: post))) getusers).queried
        = pre ++ [gbad] := by
      simpa [update_store] using hrun.2.1
    have hk : (update_store (.ok (some (pre ++ gbad :: post)))
          getusers).store.map Prod.fst
        = pre ++ [gbad] := by
      simpa [update_store] using hrun.2.2
    refine ⟨herr, hq, hk, ?_⟩
    intro g hgpost
    have hgnotin : g ∉ pre ++ [gbad] := by
      simp only [List.mem_append, List.mem_singleton]
      rintro (hgpre | rfl)
      · exact hd.2.2 hgpre (by simp [hgpost])
      · exact hgbadpost hgpost
    constructor
    · rw [hq]
      exact hgnotin
    · rw [dictLookup_eq_none, hk]
      exact hgnotin

/-- C8 witness: with groups `["g1", "g2", "g3"]` where `g2`'s person-list
call raises `"boom"`, the sync fails with `"boom"`, only `g1` and `g2` are
queried and inserted, and `g3` is neither queried nor in the store. -/
theorem update_store_failure_propagation_inst :
    (update_store (.ok (some ["g1", "g2", "g3"])) wGetusers).err = some "boom"
    ∧ (update_store (.ok (some ["g1", "g2", "g3"])) wGetusers).queried
        = ["g1", "g2"]
    ∧ (update_store (.ok (some ["g1", "g2", "g3"])) wGetusers).store.map Prod.fst
        = ["g1", "g2"]
    ∧ "g3" ∉ (update_store (.ok (some ["g1", "g2", "g3"])) wGetusers).queried
    ∧ dictLookup (update_store (.ok (some ["g1", "g2", "g3"])) wGetusers).store
        "g3" = none := by
  have h := update_store_failure_propagation.2 wGetusers ["g1"] "g2" ["g3"] "boom"
    (fun g hg => by
      have : g = "g1" := by simpa using hg
      subst this
      exact ⟨some ["p1"], rfl⟩)
    (by simp [wGetusers])
    (by simp)
  exact ⟨h.1, h.2.1, h.2.2.1, (h.2.2.2 "g3" (by simp)).1, (h.2.2.2 "g3" (by simp)).2⟩

end BaiduFaceIdentify
